import Mathlib

/-
Shallow embedding of the single-endpoint Flask service in `src/api/index.py`
(children-drawings-predict).  Pure helpers (`allowed_file`, the percentage
formatting, werkzeug's `secure_filename`, `os.path.join`) are translated
directly; the stateful request handler `predict` becomes a pure function over
an explicit association-list filesystem, with the outcomes of the fallible
steps (file save, `Image.open`, resize, model inference) supplied by an
environment record, and exceptions modelled with `Except`.
-/

/-- Python `str.isspace`-style whitespace for the ASCII range, as used by
`str.split()` inside werkzeug's `secure_filename`. -/
def pyIsSpace (c : Char) : Bool :=
  c = ' ' || c = '\t' || c = '\n' || c = '\r' || c = '\x0b' || c = '\x0c'

/-- The character class kept by werkzeug's `_filename_ascii_strip_re`
(everything outside `[A-Za-z0-9_.-]` is deleted). -/
def keepChar (c : Char) : Bool :=
  ('A' ≤ c && c ≤ 'Z') || ('a' ≤ c && c ≤ 'z') || ('0' ≤ c && c ≤ '9') ||
    c = '_' || c = '.' || c = '-'

/-- Characters stripped from both ends by `.strip("._")`. -/
def pStrip (c : Char) : Bool := c = '.' || c = '_'

/-- `l.strip("._")` on a character list: drop the stripped characters from the
front, then from the back. -/
def stripDotUnderscore (l : List Char) : List Char :=
  ((l.dropWhile pStrip).reverse.dropWhile pStrip).reverse

/-- werkzeug's `secure_filename`, specialised to a POSIX host (`os.sep = '/'`,
`os.path.altsep = None`, `os.name ≠ 'nt'`, so the Windows-device-file branch is
dead).  The `unicodedata.normalize("NFKD", ·).encode("ascii", "ignore")` step
is modelled as dropping non-ASCII characters; any ASCII characters NFKD could
introduce are in any case filtered by the `[A-Za-z0-9_.-]` keep-set below. -/
def secure_filename (filename : String) : String :=
  let ascii := filename.toList.filter (fun c => c.toNat < 128)
  let replaced := ascii.map (fun c => if c = '/' then ' ' else c)
  let words := (replaced.splitOnP pyIsSpace).filter (fun w => !w.isEmpty)
  let joined := List.intercalate ['_'] words
  let kept := joined.filter keepChar
  (stripDotUnderscore kept).asString

/-- First character of a string, if any. -/
def strHead? (s : String) : Option Char := s.toList.head?

/-- Last character of a string, if any. -/
def strLast? (s : String) : Option Char := s.toList.getLast?

/-- POSIX `os.path.join` for two components: an absolute second component
replaces the first; otherwise a `/` separator is inserted unless the first
component is empty or already ends in `/`. -/
def joinPath (a b : String) : String :=
  if strHead? b = some '/' then b
  else if a = "" || strLast? a = some '/' then a ++ b
  else a ++ "/" ++ b

/-- Model of `os.getcwd()`: the process working directory at start-up. -/
def CWD : String := "/app"

/-- `UPLOADS_DIR = os.path.join(os.getcwd(), "uploads")` (line 33). -/
def UPLOADS_DIR : String := joinPath CWD "uploads"

/-- `ALLOWED_EXTENSIONS = {'png', 'jpg', 'jpeg'}` (line 30). -/
def ALLOWED_EXTENSIONS : List String := ["png", "jpg", "jpeg"]

/-- `filename.rsplit('.', 1)[1]`: the characters after the last dot.  Only
used under the guard `'.' in filename`. -/
def extAfterLastDot (s : String) : String :=
  ((s.toList.reverse.takeWhile (fun c => c ≠ '.')).reverse).asString

/-- Python `str.lower`, applied character by character (the allowed extension
set is pure ASCII, so only the ASCII case fold can matter for membership). -/
def lowerAscii (s : String) : String :=
  (s.toList.map Char.toLower).asString

/-- `allowed_file` (lines 37-38):
`'.' in filename and filename.rsplit('.', 1)[1].lower() in ALLOWED_EXTENSIONS`. -/
def allowed_file (filename : String) : Bool :=
  filename.toList.contains '.' &&
    ALLOWED_EXTENSIONS.contains (lowerAscii (extAfterLastDot filename))

/-- An image file on disk, abstracted to its pixel dimensions (the only
attributes the handler observes through PIL). -/
structure ImageFile where
  width : Nat
  height : Nat
  deriving DecidableEq

/-- The scratch filesystem: an association list from paths to image files.
The first binding for a path is the visible one. -/
abbrev FS := List (String × ImageFile)

/-- Look up the file at a path. -/
def fsLookup (fs : FS) (p : String) : Option ImageFile :=
  match fs with
  | [] => none
  | (q, f) :: rest => if q = p then some f else fsLookup rest p

/-- `os.remove` / absence: delete every binding for a path. -/
def fsErase (fs : FS) (p : String) : FS :=
  match fs with
  | [] => []
  | e :: rest => if e.1 = p then fsErase rest p else e :: fsErase rest p

/-- Write a file at a path, overwriting any previous binding. -/
def fsInsert (fs : FS) (p : String) (f : ImageFile) : FS :=
  (p, f) :: fsErase fs p

/-- `resize_image` (lines 41-48): open the file at `filepath`, resize it to
224×224 and save it back to the same path; any internal exception is re-raised
as `RuntimeError(f"Error resizing image: {e}")`.  `fault` supplies an injected
internal exception (PIL I/O, decode, ...). -/
def resize_image (filepath : String) (fs : FS) (fault : Option String) :
    Except String FS :=
  match fault with
  | some e => Except.error ("Error resizing image: " ++ e)
  | none =>
    match fsLookup fs filepath with
    | none => Except.error ("Error resizing image: file not found")
    | some _ => Except.ok (fsInsert fs filepath ⟨224, 224⟩)

/-- Round a rational to the nearest integer, ties to even — the rounding of
Python's fixed-point `format`. -/
def roundHalfEven (q : Rat) : Int :=
  let fl : Int := ⌊q⌋
  let frac : Rat := q - (fl : Rat)
  if frac < 1/2 then fl
  else if 1/2 < frac then fl + 1
  else if fl % 2 = 0 then fl else fl + 1

/-- Python `f"{x:.2f}"` on an exact rational value. -/
def formatFixed2 (x : Rat) : String :=
  let n : Int := roundHalfEven (x * 100)
  let sign := if n < 0 then "-" else ""
  let m : Nat := n.natAbs
  sign ++ toString (m / 100) ++ "." ++
    (if m % 100 < 10 then "0" else "") ++ toString (m % 100)

/-- `f"{prob * 100:.2f}%"` (line 87). -/
def formatPct (prob : Rat) : String :=
  formatFixed2 (prob * 100) ++ "%"

/-- `label_names.get(i, f'Class {i}')` with
`label_names = {0: 'Anger and aggression', 1: 'Anxiety', 2: 'Happy', 3: 'Sad'}`
(lines 86-87). -/
def label_names (i : Nat) : String :=
  match i with
  | 0 => "Anger and aggression"
  | 1 => "Anxiety"
  | 2 => "Happy"
  | 3 => "Sad"
  | _ => "Class " ++ toString i

/-- The `predictions` dict comprehension (line 87), as an ordered list of
label/percentage pairs. -/
def formatPredictions (probs : List Rat) : List (String × String) :=
  probs.enum.map (fun ip => (label_names ip.1, formatPct ip.2))

/-- The exact rational value displayed by `formatPct prob` (its `NN.NN` part):
`prob*100` rounded half-to-even at two decimal digits. -/
def pctValue (prob : Rat) : Rat :=
  ((roundHalfEven (prob * 100 * 100) : Int) : Rat) / 100

/-- The parts of the incoming request the handler reads: whether the multipart
form has a part named `image`, and that part's client-supplied filename. -/
structure Request where
  hasImagePart : Bool
  filename : String
  deriving DecidableEq

/-- werkzeug `FileStorage.__bool__`: a file object is truthy iff its filename
is non-empty. -/
def fileTruthy (req : Request) : Bool := req.filename != ""

/-- A JSON response body: either `{'error': msg}` or `{'predictions': m}`. -/
inductive JsonBody where
  | error (msg : String)
  | predictions (m : List (String × String))
  deriving DecidableEq

/-- An HTTP response: status code and JSON body. -/
structure Response where
  status : Nat
  body : JsonBody
  deriving DecidableEq

/-- The first element of the model's `results`, as the handler probes it:
it may lack a `probs` attribute, carry `probs = None`, or carry a
probability vector `probs.data.numpy()`. -/
inductive ResultItem where
  | noProbsAttr
  | probsNone
  | probsData (probs : List Rat)
  deriving DecidableEq

/-- The shape of the model's `results` value as tested by
`isinstance(results, list)` (line 84): a Python list of items, or some
non-list value. -/
inductive Results where
  | notList
  | list (items : List ResultItem)
  deriving DecidableEq

/-- The behaviour of the external collaborators during one request:
whether `file.save` succeeds (and, when it raises, whether a partial file was
left behind), whether `Image.open` succeeds, an injected internal fault for
`resize_image`, and the YOLO model's `predict`, a function of the source path
and of the image on disk there. -/
structure Env where
  saveResult : Except String Unit
  savePartialFile : Bool
  openResult : Except String Unit
  resizeFault : Option String
  infer : String → ImageFile → Except String Results

/-- What one call of the handler produces: the HTTP response, the final
scratch filesystem, and — when the model was invoked — the path and image it
was invoked on. -/
structure Outcome where
  resp : Response
  fs : FS
  inferredOn : Option (String × ImageFile)
  deriving DecidableEq

/-- The `/predict` handler (lines 50-97), as a pure function of the request,
the collaborators' behaviour, the uploaded image and the initial scratch
filesystem.  Exception propagation and the `try/except` block become `Except`
case analysis; note that when `results` is an empty Python list, `results[0]`
inside the line-84 condition raises `IndexError` (caught by the same
`except`), after the line-81 `os.remove` has already run. -/
def predict (req : Request) (env : Env) (upload : ImageFile) (fs : FS) :
    Outcome :=
  if !req.hasImagePart then
    ⟨⟨400, JsonBody.error "No image file provided"⟩, fs, none⟩
  else if !(fileTruthy req && allowed_file req.filename) then
    ⟨⟨400, JsonBody.error "Invalid file format. Allowed formats: png, jpg, jpeg"⟩, fs, none⟩
  else
    let filepath := joinPath UPLOADS_DIR (secure_filename req.filename)
    match env.saveResult with
    | Except.error e =>
      let fsE := if env.savePartialFile then fsInsert fs filepath upload else fs
      ⟨⟨500, JsonBody.error ("Error during prediction: " ++ e)⟩, fsErase fsE filepath, none⟩
    | Except.ok _ =>
      let fs1 := fsInsert fs filepath upload
      match env.openResult with
      | Except.error e =>
        ⟨⟨500, JsonBody.error ("Error during prediction: " ++ e)⟩, fsErase fs1 filepath, none⟩
      | Except.ok _ =>
        match resize_image filepath fs1 env.resizeFault with
        | Except.error e =>
          ⟨⟨500, JsonBody.error ("Error during prediction: " ++ e)⟩, fsErase fs1 filepath, none⟩
        | Except.ok fs2 =>
          let img := (fsLookup fs2 filepath).getD ⟨0, 0⟩
          match env.infer filepath img with
          | Except.error e =>
            ⟨⟨500, JsonBody.error ("Error during prediction: " ++ e)⟩, fsErase fs2 filepath,
              some (filepath, img)⟩
          | Except.ok results =>
            let fs3 := fsErase fs2 filepath
            match results with
            | Results.notList =>
              ⟨⟨500, JsonBody.error "Unable to process the image"⟩, fs3, some (filepath, img)⟩
            | Results.list [] =>
              ⟨⟨500, JsonBody.error "Error during prediction: list index out of range"⟩,
                fsErase fs3 filepath, some (filepath, img)⟩
            | Results.list (item :: _) =>
              match item with
              | ResultItem.probsData probs =>
                ⟨⟨200, JsonBody.predictions (formatPredictions probs)⟩, fs3,
                  some (filepath, img)⟩
              | _ =>
                ⟨⟨500, JsonBody.error "Unable to process the image"⟩, fs3, some (filepath, img)⟩

/-- `p` names a direct child of directory `dir` (given as character lists):
it extends `dir ++ "/"`, and the remaining component has no separator and is
neither `.` nor `..` — i.e. the path cannot escape `dir`. -/
def withinDir (dir p : List Char) : Prop :=
  p.take (dir.length + 1) = dir ++ ['/'] ∧
  '/' ∉ p.drop (dir.length + 1) ∧
  p.drop (dir.length + 1) ≠ ['.'] ∧
  p.drop (dir.length + 1) ≠ ['.', '.']

/-- The `results` shapes under which line 84's condition yields no usable
probability vector: not a list, an empty list, a first item without a `probs`
attribute, or a first item with `probs = None`. -/
def noProbsShape (r : Results) : Prop :=
  r = Results.notList ∨ r = Results.list [] ∨
  (∃ rest, r = Results.list (ResultItem.noProbsAttr :: rest)) ∨
  (∃ rest, r = Results.list (ResultItem.probsNone :: rest))

/-- An environment in which every collaborator step succeeds and the model
returns a single classification result with probability vector `ps`. -/
def okEnv (ps : List Rat) : Env :=
  ⟨Except.ok (), false, Except.ok (), none,
    fun _ _ => Except.ok (Results.list [ResultItem.probsData ps])⟩

/-- An arbitrary fault-free environment whose model output is not a list. -/
def anyEnv : Env :=
  ⟨Except.ok (), false, Except.ok (), none, fun _ _ => Except.ok Results.notList⟩

instance (dir p : List Char) : Decidable (withinDir dir p) := by
  unfold withinDir
  infer_instance

theorem fsLookup_erase (fs : FS) (p : String) :
    fsLookup (fsErase fs p) p = none := by
  induction fs with
  | nil => rfl
  | cons e rest ih =>
    by_cases h : e.1 = p
    · simp [fsErase, h, ih]
    · simp [fsErase, h, fsLookup, ih]

theorem fsLookup_erase_ne (fs : FS) {p q : String} (h : q ≠ p) :
    fsLookup (fsErase fs p) q = fsLookup fs q := by
  induction fs with
  | nil => rfl
  | cons e rest ih =>
    by_cases he : e.1 = p
    · have hq : e.1 ≠ q := fun hqq => h (hqq ▸ he)
      simp [fsErase, he, fsLookup, hq, Ne.symm h, ih]
    · simp [fsErase, he, fsLookup, ih]

theorem fsLookup_insert_self (fs : FS) (p : String) (f : ImageFile) :
    fsLookup (fsInsert fs p f) p = some f := by
  simp [fsInsert, fsLookup]

theorem fsLookup_insert_ne (fs : FS) {p q : String} (f : ImageFile) (h : q ≠ p) :
    fsLookup (fsInsert fs p f) q = fsLookup fs q := by
  have hp : p ≠ q := fun hh => h hh.symm
  simp [fsInsert, fsLookup, hp, fsLookup_erase_ne fs h]

theorem mem_of_dropWhile {p : Char → Bool} {l : List Char} {c : Char}
    (h : c ∈ l.dropWhile p) : c ∈ l := by
  induction l with
  | nil => simp at h
  | cons a t ih =>
    rw [List.dropWhile_cons] at h
    split at h
    · exact List.mem_cons_of_mem a (ih h)
    · exact h

theorem head_dropWhile_false {p : Char → Bool} {l : List Char} {c : Char}
    {cs : List Char} (h : l.dropWhile p = c :: cs) : p c = false := by
  induction l with
  | nil => simp [List.dropWhile] at h
  | cons a t ih =>
    rw [List.dropWhile_cons] at h
    split at h
    · exact ih h
    · next hp =>
      rw [List.cons.injEq] at h
      obtain ⟨rfl, -⟩ := h
      simpa using hp

theorem mem_stripDotUnderscore {l : List Char} {c : Char}
    (h : c ∈ stripDotUnderscore l) : c ∈ l := by
  unfold stripDotUnderscore at h
  rw [List.mem_reverse] at h
  have h2 := mem_of_dropWhile h
  rw [List.mem_reverse] at h2
  exact mem_of_dropWhile h2

theorem stripDotUnderscore_head {l : List Char} {c : Char} {cs : List Char}
    (h : stripDotUnderscore l = c :: cs) : pStrip c = false := by
  unfold stripDotUnderscore at h
  obtain ⟨w, hw⟩ := List.dropWhile_suffix (l := (l.dropWhile pStrip).reverse) pStrip
  have ht : l.dropWhile pStrip = c :: (cs ++ w.reverse) := by
    have h1 : l.dropWhile pStrip = ((l.dropWhile pStrip).reverse).reverse :=
      (List.reverse_reverse _).symm
    rw [h1, ← hw, List.reverse_append, h]
    simp
  exact head_dropWhile_false ht

theorem secure_filename_chars {fn : String} {c : Char}
    (h : c ∈ (secure_filename fn).toList) : keepChar c = true := by
  unfold secure_filename at h
  have h2 := mem_stripDotUnderscore h
  exact (List.mem_filter.mp h2).2

theorem secure_filename_head {fn : String} {c : Char} {cs : List Char}
    (h : (secure_filename fn).toList = c :: cs) : pStrip c = false := by
  unfold secure_filename at h
  exact stripDotUnderscore_head h

/-- C7: for every client-supplied filename that passes the extension check,
`secure_filename` leaves only characters from the werkzeug keep-set, so the
destination `os.path.join(UPLOADS_DIR, secure_filename(filename))` is a single
path component under the uploads scratch directory — it contains no separator
and is neither `.` nor `..`, so no path-traversal component of the client
filename can make the write target a path outside the uploads directory. -/
theorem sanitized_path_within_uploads (fn : String)
    (_h : allowed_file fn = true) :
    withinDir UPLOADS_DIR.toList
      (joinPath UPLOADS_DIR (secure_filename fn)).toList := by
  have hnoSlash : '/' ∉ (secure_filename fn).toList := by
    intro hmem
    have hk := secure_filename_chars hmem
    simp [keepChar] at hk
  have hhead : ¬ strHead? (secure_filename fn) = some '/' := by
    intro hEq
    cases hc : (secure_filename fn).toList with
    | nil => rw [strHead?, hc] at hEq; simp at hEq
    | cons c cs =>
      rw [strHead?, hc] at hEq
      simp at hEq
      subst hEq
      exact hnoSlash (by rw [hc]; exact List.mem_cons_self _ _)
  have hjoin : joinPath UPLOADS_DIR (secure_filename fn) =
      UPLOADS_DIR ++ "/" ++ secure_filename fn := by
    rw [joinPath, if_neg hhead, if_neg (by decide)]
  have hdata : (joinPath UPLOADS_DIR (secure_filename fn)).toList =
      (UPLOADS_DIR.toList ++ ['/']) ++ (secure_filename fn).toList := by
    rw [hjoin]
    simp [String.toList, String.data_append]
  have hlen : (UPLOADS_DIR.toList ++ ['/']).length = UPLOADS_DIR.toList.length + 1 := by
    simp
  refine ⟨?_, ?_, ?_, ?_⟩
  · rw [hdata, List.take_left' hlen]
  · rw [hdata, List.drop_left' hlen]
    exact hnoSlash
  · rw [hdata, List.drop_left' hlen]
    intro heq
    have := secure_filename_head heq
    simp [pStrip] at this
  · rw [hdata, List.drop_left' hlen]
    intro heq
    have := secure_filename_head heq
    simp [pStrip] at this

/-- C7 witness: the traversal filename `../../etc/passwd.png` passes the
extension check and its computed destination stays inside the uploads
directory. -/
theorem sanitized_path_within_uploads_witness :
    allowed_file "../../etc/passwd.png" = true ∧
    withinDir UPLOADS_DIR.toList
      (joinPath UPLOADS_DIR (secure_filename "../../etc/passwd.png")).toList :=
  ⟨by decide, sanitized_path_within_uploads "../../etc/passwd.png" (by decide)⟩

/-- C4: a POST without a multipart file part named `image` is answered with
HTTP 400 and a JSON error body, and the scratch filesystem is unchanged (no
file is created). -/
theorem missing_image_part_400 (req : Request) (env : Env) (upload : ImageFile)
    (fs : FS) (h : req.hasImagePart = false) :
    predict req env upload fs =
      ⟨⟨400, JsonBody.error "No image file provided"⟩, fs, none⟩ := by
  simp [predict, h]

/-- C4 witness: concrete request with no `image` part. -/
theorem missing_image_part_400_witness :
    (⟨false, "happy.jpg"⟩ : Request).hasImagePart = false ∧
    predict ⟨false, "happy.jpg"⟩ anyEnv ⟨640, 480⟩ [] =
      ⟨⟨400, JsonBody.error "No image file provided"⟩, [], none⟩ :=
  ⟨rfl, missing_image_part_400 _ _ _ _ rfl⟩

/-- C5: an uploaded file whose client-supplied filename fails
`allowed_file` (extension not in png/jpg/jpeg, case-insensitively, including
filenames with no extension) is answered with HTTP 400 and the exact invalid
format error body, and no file is persisted (the filesystem is unchanged). -/
theorem invalid_format_400 (req : Request) (env : Env) (upload : ImageFile)
    (fs : FS) (h1 : req.hasImagePart = true)
    (h2 : allowed_file req.filename = false) :
    predict req env upload fs =
      ⟨⟨400, JsonBody.error "Invalid file format. Allowed formats: png, jpg, jpeg"⟩,
        fs, none⟩ := by
  simp [predict, h1, h2]

/-- C5 witness: uploading `notes.txt` yields the invalid-format 400. -/
theorem invalid_format_400_witness :
    (⟨true, "notes.txt"⟩ : Request).hasImagePart = true ∧
    allowed_file "notes.txt" = false ∧
    predict ⟨true, "notes.txt"⟩ anyEnv ⟨640, 480⟩ [] =
      ⟨⟨400, JsonBody.error "Invalid file format. Allowed formats: png, jpg, jpeg"⟩,
        [], none⟩ :=
  ⟨rfl, by decide, invalid_format_400 _ _ _ _ rfl (by decide)⟩

/-- C10: a request whose `image` part has an empty filename takes the
invalid-format branch (the form part is present, so the missing-input check
passes; the falsy file object fails `file and allowed_file(...)`), returning
the invalid-format 400 and not the missing-input 400. -/
theorem empty_filename_invalid_format_400 (req : Request) (env : Env)
    (upload : ImageFile) (fs : FS) (h1 : req.hasImagePart = true)
    (h2 : req.filename = "") :
    predict req env upload fs =
      ⟨⟨400, JsonBody.error "Invalid file format. Allowed formats: png, jpg, jpeg"⟩,
        fs, none⟩ ∧
    (predict req env upload fs).resp.body ≠
      JsonBody.error "No image file provided" := by
  have hmain : predict req env upload fs =
      ⟨⟨400, JsonBody.error "Invalid file format. Allowed formats: png, jpg, jpeg"⟩,
        fs, none⟩ := by
    simp [predict, h1, fileTruthy, h2]
  refine ⟨hmain, ?_⟩
  rw [hmain]
  simp

/-- C10 witness: concrete request with an `image` part and empty filename. -/
theorem empty_filename_invalid_format_400_witness :
    (⟨true, ""⟩ : Request).hasImagePart = true ∧
    (⟨true, ""⟩ : Request).filename = "" ∧
    (predict ⟨true, ""⟩ anyEnv ⟨640, 480⟩ [] =
      ⟨⟨400, JsonBody.error "Invalid file format. Allowed formats: png, jpg, jpeg"⟩,
        [], none⟩ ∧
    (predict ⟨true, ""⟩ anyEnv ⟨640, 480⟩ []).resp.body ≠
      JsonBody.error "No image file provided") :=
  ⟨rfl, rfl, empty_filename_invalid_format_400 _ _ _ _ rfl rfl⟩

/-- C2: once a request has passed validation (so the upload is persisted to
the scratch path), the scratch file is gone from the filesystem the handler
returns, on every exit path: success, the no-probability-vector path, and any
exception during save/open/resize/inference. -/
theorem scratch_file_cleanup (req : Request) (env : Env) (upload : ImageFile)
    (fs : FS) (h1 : req.hasImagePart = true) (h2 : fileTruthy req = true)
    (h3 : allowed_file req.filename = true) :
    fsLookup (predict req env upload fs).fs
      (joinPath UPLOADS_DIR (secure_filename req.filename)) = none := by
  obtain ⟨sr, spf, orr, rf, inf⟩ := env
  cases sr with
  | error e => simp [predict, h1, h2, h3, fsLookup_erase]
  | ok u =>
    cases orr with
    | error e => simp [predict, h1, h2, h3, fsLookup_erase]
    | ok u2 =>
      cases rf with
      | some e => simp [predict, h1, h2, h3, resize_image, fsLookup_erase]
      | none =>
        cases hI : inf (joinPath UPLOADS_DIR (secure_filename req.filename)) ⟨224, 224⟩ with
        | error e =>
          simp [predict, h1, h2, h3, resize_image, fsLookup_insert_self, hI, fsLookup_erase]
        | ok r =>
          cases r with
          | notList =>
            simp [predict, h1, h2, h3, resize_image, fsLookup_insert_self, hI, fsLookup_erase]
          | list items =>
            cases items with
            | nil =>
              simp [predict, h1, h2, h3, resize_image, fsLookup_insert_self, hI, fsLookup_erase]
            | cons it rest =>
              cases it <;>
                simp [predict, h1, h2, h3, resize_image, fsLookup_insert_self, hI, fsLookup_erase]

/-- C2 witness: the concrete `happy.jpg` request against a fault-free
environment leaves no scratch file behind. -/
theorem scratch_file_cleanup_witness :
    (⟨true, "happy.jpg"⟩ : Request).hasImagePart = true ∧
    fileTruthy ⟨true, "happy.jpg"⟩ = true ∧
    allowed_file "happy.jpg" = true ∧
    fsLookup (predict ⟨true, "happy.jpg"⟩ (okEnv [1/100, 2/100, 95/100, 2/100])
        ⟨640, 480⟩ []).fs
      (joinPath UPLOADS_DIR (secure_filename "happy.jpg")) = none :=
  ⟨rfl, by decide, by decide,
    scratch_file_cleanup _ _ _ _ rfl (by decide) (by decide)⟩

/-- C3: whenever save, open, resize or model inference raises, the handler
catches the exception and returns HTTP 500 with a JSON error whose string is
"Error during prediction: " followed by the exception's string form, and the
scratch file is removed if it still exists; no exception escapes (`predict` is
total). -/
theorem exception_caught_500 (req : Request) (env : Env) (upload : ImageFile)
    (fs : FS) (h1 : req.hasImagePart = true) (h2 : fileTruthy req = true)
    (h3 : allowed_file req.filename = true)
    (hfault : (∃ e, env.saveResult = Except.error e) ∨
      (∃ e, env.openResult = Except.error e) ∨
      env.resizeFault ≠ none ∨
      (∀ p i, ∃ e, env.infer p i = Except.error e)) :
    (predict req env upload fs).resp.status = 500 ∧
    (∃ m, (predict req env upload fs).resp.body =
      JsonBody.error ("Error during prediction: " ++ m)) ∧
    fsLookup (predict req env upload fs).fs
      (joinPath UPLOADS_DIR (secure_filename req.filename)) = none := by
  obtain ⟨sr, spf, orr, rf, inf⟩ := env
  cases sr with
  | error e =>
    refine ⟨?_, ⟨e, ?_⟩, ?_⟩ <;> simp [predict, h1, h2, h3, fsLookup_erase]
  | ok u =>
    cases orr with
    | error e =>
      refine ⟨?_, ⟨e, ?_⟩, ?_⟩ <;> simp [predict, h1, h2, h3, fsLookup_erase]
    | ok u2 =>
      cases rf with
      | some e =>
        refine ⟨?_, ⟨"Error resizing image: " ++ e, ?_⟩, ?_⟩ <;>
          simp [predict, h1, h2, h3, resize_image, fsLookup_erase]
      | none =>
        have hf : ∀ p i, ∃ e, inf p i = Except.error e := by
          rcases hfault with ⟨e, he⟩ | ⟨e, he⟩ | hne | hf
          · exact absurd he (by simp)
          · exact absurd he (by simp)
          · exact absurd rfl hne
          · exact hf
        obtain ⟨e, he⟩ :=
          hf (joinPath UPLOADS_DIR (secure_filename req.filename)) ⟨224, 224⟩
        refine ⟨?_, ⟨e, ?_⟩, ?_⟩ <;>
          simp [predict, h1, h2, h3, resize_image, fsLookup_insert_self, he,
            fsLookup_erase]

/-- C3 witness: a concrete request in which the resize step raises. -/
theorem exception_caught_500_witness :
    (⟨true, "happy.jpg"⟩ : Request).hasImagePart = true ∧
    fileTruthy ⟨true, "happy.jpg"⟩ = true ∧
    allowed_file "happy.jpg" = true ∧
    ((⟨Except.ok (), false, Except.ok (), some "cannot identify image file",
        fun _ _ => Except.ok Results.notList⟩ : Env).resizeFault ≠ none) ∧
    ((predict ⟨true, "happy.jpg"⟩
        ⟨Except.ok (), false, Except.ok (), some "cannot identify image file",
          fun _ _ => Except.ok Results.notList⟩ ⟨640, 480⟩ []).resp.status = 500 ∧
      (∃ m, (predict ⟨true, "happy.jpg"⟩
        ⟨Except.ok (), false, Except.ok (), some "cannot identify image file",
          fun _ _ => Except.ok Results.notList⟩ ⟨640, 480⟩ []).resp.body =
        JsonBody.error ("Error during prediction: " ++ m)) ∧
      fsLookup (predict ⟨true, "happy.jpg"⟩
        ⟨Except.ok (), false, Except.ok (), some "cannot identify image file",
          fun _ _ => Except.ok Results.notList⟩ ⟨640, 480⟩ []).fs
        (joinPath UPLOADS_DIR (secure_filename "happy.jpg")) = none) :=
  ⟨rfl, by decide, by decide, by simp,
    exception_caught_500 _ _ _ _ rfl (by decide) (by decide)
      (Or.inr (Or.inr (Or.inl (by simp))))⟩

/-- The line-86 lookup table written as the spec states it: indices 0-3 name
the four emotions and every further index falls back to `Class i`. -/
theorem label_names_spec (i : Nat) :
    label_names i =
      (if i = 0 then "Anger and aggression"
       else if i = 1 then "Anxiety"
       else if i = 2 then "Happy"
       else if i = 3 then "Sad"
       else "Class " ++ toString i) := by
  match i with
  | 0 => rfl
  | 1 => rfl
  | 2 => rfl
  | 3 => rfl
  | (n + 4) => rfl

/-- C6: when the model's `results` carries no probability vector for the first
result — `results` not a list, an empty list (where `results[0]` raises
`IndexError`, caught by the handler), a first result without a `probs`
attribute, or `probs = None` — the response is HTTP 500 with an error body and
no predictions key. -/
theorem no_probs_500 (req : Request) (env : Env) (upload : ImageFile)
    (fs : FS) (r : Results) (h1 : req.hasImagePart = true)
    (h2 : fileTruthy req = true) (h3 : allowed_file req.filename = true)
    (h4 : env.saveResult = Except.ok ()) (h5 : env.openResult = Except.ok ())
    (h6 : env.resizeFault = none)
    (h7 : ∀ p i, env.infer p i = Except.ok r) (h8 : noProbsShape r) :
    (predict req env upload fs).resp.status = 500 ∧
    ∃ m, (predict req env upload fs).resp.body = JsonBody.error m := by
  obtain ⟨sr, spf, orr, rf, inf⟩ := env
  simp only at h4 h5 h6 h7
  subst h4 h5 h6
  rcases h8 with hr | hr | ⟨rest, hr⟩ | ⟨rest, hr⟩ <;> subst hr <;>
    refine ⟨?_, ?_⟩ <;>
    simp [predict, h1, h2, h3, resize_image, fsLookup_insert_self, h7]

/-- C6 witness: a concrete request where the model returns an empty list. -/
theorem no_probs_500_witness :
    (⟨true, "happy.jpg"⟩ : Request).hasImagePart = true ∧
    fileTruthy ⟨true, "happy.jpg"⟩ = true ∧
    allowed_file "happy.jpg" = true ∧
    noProbsShape (Results.list []) ∧
    ((predict ⟨true, "happy.jpg"⟩
        ⟨Except.ok (), false, Except.ok (), none,
          fun _ _ => Except.ok (Results.list [])⟩ ⟨640, 480⟩ []).resp.status = 500 ∧
      ∃ m, (predict ⟨true, "happy.jpg"⟩
        ⟨Except.ok (), false, Except.ok (), none,
          fun _ _ => Except.ok (Results.list [])⟩ ⟨640, 480⟩ []).resp.body =
        JsonBody.error m) :=
  ⟨rfl, by decide, by decide, Or.inr (Or.inl rfl),
    no_probs_500 _ _ _ _ (Results.list []) rfl (by decide) (by decide) rfl rfl rfl
      (fun _ _ => rfl) (Or.inr (Or.inl rfl))⟩

/-- C1: when every step succeeds and the model returns a probability vector
`ps` for the first result, the response is HTTP 200 and maps index 0 to
"Anger and aggression", 1 to "Anxiety", 2 to "Happy", 3 to "Sad" and every
index `i ≥ 4` to `Class i`, each value formatted as a two-decimal percentage
string. -/
theorem label_mapping_200 (req : Request) (env : Env) (upload : ImageFile)
    (fs : FS) (ps : List Rat) (h1 : req.hasImagePart = true)
    (h2 : fileTruthy req = true) (h3 : allowed_file req.filename = true)
    (h4 : env.saveResult = Except.ok ()) (h5 : env.openResult = Except.ok ())
    (h6 : env.resizeFault = none)
    (h7 : ∀ p i, env.infer p i =
      Except.ok (Results.list [ResultItem.probsData ps])) :
    (predict req env upload fs).resp =
      ⟨200, JsonBody.predictions (ps.enum.map (fun ip =>
        (if ip.1 = 0 then "Anger and aggression"
         else if ip.1 = 1 then "Anxiety"
         else if ip.1 = 2 then "Happy"
         else if ip.1 = 3 then "Sad"
         else "Class " ++ toString ip.1, formatPct ip.2)))⟩ := by
  obtain ⟨sr, spf, orr, rf, inf⟩ := env
  simp only at h4 h5 h6 h7
  subst h4 h5 h6
  have hmap : formatPredictions ps = ps.enum.map (fun ip =>
      (if ip.1 = 0 then "Anger and aggression"
       else if ip.1 = 1 then "Anxiety"
       else if ip.1 = 2 then "Happy"
       else if ip.1 = 3 then "Sad"
       else "Class " ++ toString ip.1, formatPct ip.2)) := by
    unfold formatPredictions
    refine List.map_congr_left ?_
    intro ip _
    rw [label_names_spec]
  simp [predict, h1, h2, h3, resize_image, fsLookup_insert_self, h7, hmap]

/-- Rounding an exact integer changes nothing. -/
theorem roundHalfEven_intCast (n : Int) : roundHalfEven ((n : Rat)) = n := by
  unfold roundHalfEven
  rw [Int.floor_intCast]
  norm_num

/-- Evaluation rule for `formatPct` when `prob*100*100` is an exact integer
`n`: the displayed string is `n` split at two decimal digits. -/
theorem formatPct_eq (p : Rat) (n : Int) (h : p * 100 * 100 = (n : Rat)) :
    formatPct p =
      (if n < 0 then "-" else "") ++ toString (n.natAbs / 100) ++ "." ++
        (if n.natAbs % 100 < 10 then "0" else "") ++ toString (n.natAbs % 100) ++ "%" := by
  simp only [formatPct, formatFixed2]
  rw [h, roundHalfEven_intCast]

/-- C1 witness: the concrete scenario — `happy.jpg` with mock vector
`[0.01, 0.02, 0.95, 0.02]` yields 200 with the four expected percentage
strings. -/
theorem label_mapping_200_witness :
    (⟨true, "happy.jpg"⟩ : Request).hasImagePart = true ∧
    fileTruthy ⟨true, "happy.jpg"⟩ = true ∧
    allowed_file "happy.jpg" = true ∧
    (predict ⟨true, "happy.jpg"⟩ (okEnv [1/100, 2/100, 95/100, 2/100])
        ⟨640, 480⟩ []).resp =
      ⟨200, JsonBody.predictions
        [("Anger and aggression", "1.00%"), ("Anxiety", "2.00%"),
         ("Happy", "95.00%"), ("Sad", "2.00%")]⟩ :=
  ⟨rfl, by decide, by decide, by
    rw [label_mapping_200 _ _ _ _ [1/100, 2/100, 95/100, 2/100] rfl (by decide)
      (by decide) rfl rfl rfl (fun _ _ => rfl)]
    have hA : formatPct ((100 : Rat)⁻¹) = "1.00%" := by
      rw [formatPct_eq ((100 : Rat)⁻¹) 100 (by norm_num)]
      rfl
    have hB : formatPct (2/100 : Rat) = "2.00%" := by
      rw [formatPct_eq (2/100) 200 (by norm_num)]
      rfl
    have hC : formatPct (95/100 : Rat) = "95.00%" := by
      rw [formatPct_eq (95/100) 9500 (by norm_num)]
      rfl
    simp [List.enum, List.enumFrom, hA, hB, hC]⟩

/-- C8: on the path where validation, save and open succeed and the resize
step does not fault, resizing rewrites the scratch file in place at the same
path with dimensions exactly 224×224 (other paths untouched), and the model is
then invoked on that path holding the 224×224 image. -/
theorem resize_in_place_before_infer (req : Request) (env : Env)
    (upload : ImageFile) (fs : FS) (h1 : req.hasImagePart = true)
    (h2 : fileTruthy req = true) (h3 : allowed_file req.filename = true)
    (h4 : env.saveResult = Except.ok ()) (h5 : env.openResult = Except.ok ())
    (h6 : env.resizeFault = none) :
    (predict req env upload fs).inferredOn =
      some (joinPath UPLOADS_DIR (secure_filename req.filename), ⟨224, 224⟩) ∧
    (∀ p f img, fsLookup f p = some img →
      resize_image p f none = Except.ok (fsInsert f p ⟨224, 224⟩) ∧
      fsLookup (fsInsert f p ⟨224, 224⟩) p = some ⟨224, 224⟩ ∧
      ∀ q, q ≠ p → fsLookup (fsInsert f p ⟨224, 224⟩) q = fsLookup f q) := by
  constructor
  · obtain ⟨sr, spf, orr, rf, inf⟩ := env
    simp only at h4 h5 h6
    subst h4 h5 h6
    cases hI : inf (joinPath UPLOADS_DIR (secure_filename req.filename)) ⟨224, 224⟩ with
    | error e =>
      simp [predict, h1, h2, h3, resize_image, fsLookup_insert_self, hI]
    | ok r =>
      cases r with
      | notList => simp [predict, h1, h2, h3, resize_image, fsLookup_insert_self, hI]
      | list items =>
        cases items with
        | nil => simp [predict, h1, h2, h3, resize_image, fsLookup_insert_self, hI]
        | cons it rest =>
          cases it <;>
            simp [predict, h1, h2, h3, resize_image, fsLookup_insert_self, hI]
  · intro p f img hlk
    refine ⟨?_, fsLookup_insert_self f p ⟨224, 224⟩, ?_⟩
    · simp [resize_image, hlk]
    · intro q hq
      exact fsLookup_insert_ne f ⟨224, 224⟩ hq

/-- C8 witness: the concrete `happy.jpg` request against a fault-free
environment; the model is invoked on the scratch path holding a 224×224
image. -/
theorem resize_in_place_before_infer_witness :
    (⟨true, "happy.jpg"⟩ : Request).hasImagePart = true ∧
    fileTruthy ⟨true, "happy.jpg"⟩ = true ∧
    allowed_file "happy.jpg" = true ∧
    ((predict ⟨true, "happy.jpg"⟩ (okEnv [1/100, 2/100, 95/100, 2/100])
        ⟨640, 480⟩ []).inferredOn =
      some (joinPath UPLOADS_DIR (secure_filename "happy.jpg"), ⟨224, 224⟩) ∧
    (∀ p f img, fsLookup f p = some img →
      resize_image p f none = Except.ok (fsInsert f p ⟨224, 224⟩) ∧
      fsLookup (fsInsert f p ⟨224, 224⟩) p = some ⟨224, 224⟩ ∧
      ∀ q, q ≠ p → fsLookup (fsInsert f p ⟨224, 224⟩) q = fsLookup f q)) :=
  ⟨rfl, by decide, by decide,
    resize_in_place_before_infer _ _ _ _ rfl (by decide) (by decide) rfl rfl rfl⟩

/-- Half-even rounding moves a rational by at most 1/2. -/
theorem roundHalfEven_close (q : Rat) :
    |((roundHalfEven q : Int) : Rat) - q| ≤ 1/2 := by
  have h1 : ((⌊q⌋ : Int) : Rat) ≤ q := Int.floor_le q
  have h2 : q < ((⌊q⌋ : Int) : Rat) + 1 := Int.lt_floor_add_one q
  simp only [roundHalfEven]
  split
  · next hlt =>
    rw [abs_sub_comm, abs_of_nonneg (by linarith)]
    linarith
  · next hge =>
    split
    · next hgt =>
      push_cast
      rw [abs_of_nonneg (by linarith)]
      linarith
    · next hle =>
      split
      · rw [abs_sub_comm, abs_of_nonneg (by linarith)]
        linarith
      · push_cast
        rw [abs_of_nonneg (by linarith)]
        linarith

/-- Each displayed two-decimal percentage value is within half a cent
(1/200 of a percent) of the exact percentage `prob*100`. -/
theorem pctValue_close (p : Rat) : |pctValue p - p * 100| ≤ 1/200 := by
  have hr := roundHalfEven_close (p * 100 * 100)
  unfold pctValue
  have heq : ((roundHalfEven (p * 100 * 100) : Int) : Rat) / 100 - p * 100 =
      (((roundHalfEven (p * 100 * 100) : Int) : Rat) - p * 100 * 100) / 100 := by
    ring
  rw [heq, abs_div]
  have habs : |(100 : Rat)| = 100 := by norm_num
  rw [habs]
  linarith

/-- C9: for every 4-element probability vector summing to 1, the four
two-decimal percentage values in the response sum to 100.00 up to rounding
error — within 0.02 of 100. -/
theorem pct_sum_within_rounding (p0 p1 p2 p3 : Rat)
    (h : p0 + p1 + p2 + p3 = 1) :
    |pctValue p0 + pctValue p1 + pctValue p2 + pctValue p3 - 100| ≤ 2/100 := by
  have h0 := pctValue_close p0
  have h1 := pctValue_close p1
  have h2 := pctValue_close p2
  have h3 := pctValue_close p3
  have h100 : p0 * 100 + p1 * 100 + p2 * 100 + p3 * 100 = 100 := by
    have := congrArg (fun x => x * (100 : Rat)) h
    simp at this
    linarith
  have hsum : pctValue p0 + pctValue p1 + pctValue p2 + pctValue p3 - 100 =
      (pctValue p0 - p0 * 100) + (pctValue p1 - p1 * 100) +
        (pctValue p2 - p2 * 100) + (pctValue p3 - p3 * 100) := by
    linarith
  rw [hsum]
  calc |(pctValue p0 - p0 * 100) + (pctValue p1 - p1 * 100) +
        (pctValue p2 - p2 * 100) + (pctValue p3 - p3 * 100)|
      ≤ |(pctValue p0 - p0 * 100) + (pctValue p1 - p1 * 100) +
          (pctValue p2 - p2 * 100)| + |pctValue p3 - p3 * 100| := abs_add _ _
    _ ≤ |(pctValue p0 - p0 * 100) + (pctValue p1 - p1 * 100)| +
          |pctValue p2 - p2 * 100| + |pctValue p3 - p3 * 100| := by
        linarith [abs_add ((pctValue p0 - p0 * 100) + (pctValue p1 - p1 * 100))
          (pctValue p2 - p2 * 100)]
    _ ≤ |pctValue p0 - p0 * 100| + |pctValue p1 - p1 * 100| +
          |pctValue p2 - p2 * 100| + |pctValue p3 - p3 * 100| := by
        linarith [abs_add (pctValue p0 - p0 * 100) (pctValue p1 - p1 * 100)]
    _ ≤ 2/100 := by linarith

/-- C9 witness: the uniform vector `[1/4, 1/4, 1/4, 1/4]`. -/
theorem pct_sum_within_rounding_witness :
    ((1 : Rat)/4 + 1/4 + 1/4 + 1/4 = 1) ∧
    |pctValue (1/4) + pctValue (1/4) + pctValue (1/4) + pctValue (1/4) - 100| ≤
      2/100 :=
  ⟨by norm_num, pct_sum_within_rounding _ _ _ _ (by norm_num)⟩
